import Mathlib

/-!
Verification of the session event-processing and input-delivery subsystem
of the claudes-party repository.

The TypeScript sources are shallowly embedded:
* loosely-typed JavaScript payload values become the inductive `JSValue`
  (with JS truthiness, `||`-choice, property access and `String(...)`
  stringification made explicit);
* the module-level `Map<string, ClaudeSession>` becomes an insertion-ordered
  association list with JS `Map` update semantics;
* `Date.now()` becomes an explicit `now : Nat` argument;
* filesystem / process / HTTP effects used by the input-delivery channel
  become an explicit `World` state threaded through the functions, with
  oracles for process liveness, HTTP outcomes and filesystem errors.
-/

/-- A JavaScript runtime value, as far as the hook payloads need:
`undefined`, `null`, booleans, (integer) numbers, strings, arrays and
plain objects (ordered field lists). -/
inductive JSValue where
  | undefined : JSValue
  | null : JSValue
  | bool : Bool → JSValue
  | num : Int → JSValue
  | str : String → JSValue
  | arr : List JSValue → JSValue
  | obj : List (String × JSValue) → JSValue

/-- A JSON-object payload: an ordered list of fields (no duplicate keys in
any payload the server ever builds). -/
abbrev JSObj : Type := List (String × JSValue)

/-- JS `ToBoolean`: `undefined`, `null`, `false`, `0` and `""` are falsy;
every array and object (even empty) is truthy. -/
def truthy : JSValue → Bool
  | .undefined => false
  | .null => false
  | .bool b => b
  | .num n => decide (n ≠ 0)
  | .str s => decide (s ≠ "")
  | .arr _ => true
  | .obj _ => true

/-- JS `a || b`: the left operand when truthy, otherwise the right one. -/
def jsOr (a b : JSValue) : JSValue := if truthy a then a else b

/-- Property read on an object field list; an absent key reads as
`undefined` (first occurrence wins, matching JS objects, which cannot
hold a key twice). -/
def objGet (o : JSObj) (k : String) : JSValue :=
  match List.find? (fun p => p.1 = k) o with
  | some p => p.2
  | none => .undefined

/-- Property read on an arbitrary value: named properties of non-objects
(including the arrays flowing through option parsing) read as `undefined`. -/
def getProp (v : JSValue) (k : String) : JSValue :=
  match v with
  | .obj o => objGet o k
  | _ => .undefined

/-- JS strict equality against a string literal (`v === "lit"`). -/
def jsStrictEqStr (v : JSValue) (s : String) : Bool :=
  match v with
  | .str t => decide (t = s)
  | _ => false

mutual
/-- JS `String(v)`. Arrays stringify as comma-joined elements with
`null`/`undefined` elements contributing the empty string; plain objects
stringify as `"[object Object]"`. -/
def jsToString : JSValue → String
  | .undefined => "undefined"
  | .null => "null"
  | .bool b => if b then "true" else "false"
  | .num n => toString n
  | .str s => s
  | .arr xs => jsArrToString xs
  | .obj _ => "[object Object]"

def jsArrToString : List JSValue → String
  | [] => ""
  | [v] => jsElemToString v
  | v :: vs => jsElemToString v ++ "," ++ jsArrToString vs

def jsElemToString : JSValue → String
  | .null => ""
  | .undefined => ""
  | v => jsToString v
end

/-- `lookupSessionSlug` returns `string | undefined`; embed its result. -/
def jsOfSlug : Option String → JSValue
  | some s => .str s
  | none => .undefined

/-- One selectable reply offered by a prompt (src/shared/types.ts
`InputOption`).  The TS field types say `string`, but `parseOptions` casts
raw payload values without converting them, so at runtime the fields hold
arbitrary JS values; the embedding keeps them as `JSValue`. -/
structure InputOption where
  label : JSValue
  value : JSValue
  description : JSValue

/-- `ClaudeSession.status`: `'active' | 'waiting' | 'stopped'`. -/
inductive SessionStatus where
  | active : SessionStatus
  | waiting : SessionStatus
  | stopped : SessionStatus
deriving DecidableEq

/-- One monitored session (src/shared/types.ts `ClaudeSession`, with the
slug/question/options fields of the extended sessions module).  Optional
string-typed TS fields are `JSValue` (`undefined` = absent); `options` keeps
its `InputOption[] | undefined` type as `Option (List InputOption)`. -/
structure ClaudeSession where
  id : String
  workingDirectory : JSValue
  startTime : Nat
  status : SessionStatus
  lastActivity : Nat
  currentTool : JSValue
  lastNotification : JSValue
  slug : JSValue
  question : JSValue
  options : Option (List InputOption)

/-- The six recognized hook types. -/
inductive HookType where
  | PreToolUse : HookType
  | PostToolUse : HookType
  | Notification : HookType
  | Stop : HookType
  | SessionStart : HookType
  | SessionEnd : HookType
deriving DecidableEq

/-- A normalized webhook delivery (src/shared/types.ts `HookEvent`). -/
structure HookEvent where
  type : HookType
  sessionId : String
  timestamp : Nat
  data : JSObj

/-- The module-level `Map<string, ClaudeSession>`, embedded as an
insertion-ordered association list. -/
abbrev Registry : Type := List (String × ClaudeSession)

/-- `sessions.get(k)`. -/
def mapGet (m : Registry) (k : String) : Option ClaudeSession :=
  match List.find? (fun p => p.1 = k) m with
  | some p => some p.2
  | none => none

/-- `sessions.set(k, v)`: updates the existing entry in place (keeping its
position), or appends a new entry — JS `Map` insertion-order semantics. -/
def mapSet : Registry → String → ClaudeSession → Registry
  | [], k, v => [(k, v)]
  | p :: rest, k, v => if p.1 = k then (k, v) :: rest else p :: mapSet rest k v

/-- `getSessions()` = `Array.from(sessions.values())`. -/
def getSessions (m : Registry) : List ClaudeSession := m.map (fun p => p.2)

/-- `getSession(sessionId)` = `sessions.get(sessionId)`. -/
def getSession (m : Registry) (sessionId : String) : Option ClaudeSession :=
  mapGet m sessionId

/-- `createSession(sessionId, workingDirectory)`: builds a fresh record —
slug from `lookupSessionSlug` (embedded as the oracle `slugOf`), both
timestamps stamped with the current time, status `active`, everything else
absent — and stores it.  Returns the record and the updated registry. -/
def createSession (slugOf : String → Option String) (now : Nat) (st : Registry)
    (sessionId : String) (workingDirectory : JSValue) : ClaudeSession × Registry :=
  let slug := jsOfSlug (slugOf sessionId)
  let session : ClaudeSession :=
    { id := sessionId
      workingDirectory := workingDirectory
      startTime := now
      status := .active
      lastActivity := now
      currentTool := .undefined
      lastNotification := .undefined
      slug := slug
      question := .undefined
      options := none }
  (session, mapSet st sessionId session)

/-- The `Partial<ClaudeSession>` updates actually passed to
`updateSession` by the event handlers: an outer `Option` marks whether the
field appears in the update object at all (an explicit `undefined` value
still overwrites, exactly as object spread does). -/
structure SessionUpdates where
  status : Option SessionStatus := none
  currentTool : Option JSValue := none
  lastNotification : Option JSValue := none
  question : Option JSValue := none
  options : Option (Option (List InputOption)) := none

/-- `updateSession(sessionId, updates)`: merges
`{ ...session, ...updates, lastActivity: Date.now() }` when the session
exists, otherwise returns `undefined` and leaves the registry alone. -/
def updateSession (now : Nat) (st : Registry) (sessionId : String)
    (updates : SessionUpdates) : Option ClaudeSession × Registry :=
  match mapGet st sessionId with
  | some session =>
    let updated : ClaudeSession :=
      { session with
        status := updates.status.getD session.status
        currentTool := updates.currentTool.getD session.currentTool
        lastNotification := updates.lastNotification.getD session.lastNotification
        question := updates.question.getD session.question
        options := updates.options.getD session.options
        lastActivity := now }
    (some updated, mapSet st sessionId updated)
  | none => (none, st)

/-- One entry of `parseOptions`'s `rawOptions.map((opt, index) => ...)`:
strings map to themselves; non-null values of JS type `"object"` (plain
objects and arrays) read `label`/`text`/`name` and `value`/`label`/`text`
with a 1-based ordinal default; everything else degrades to `String(opt)`. -/
def parseOneOption (index : Nat) (o : JSValue) : InputOption :=
  match o with
  | .str s => { label := .str s, value := .str s, description := .undefined }
  | .obj _ =>
    { label := jsOr (getProp o "label") (jsOr (getProp o "text")
        (jsOr (getProp o "name") (.str (toString (index + 1)))))
      value := jsOr (getProp o "value") (jsOr (getProp o "label")
        (jsOr (getProp o "text") (.str (toString (index + 1)))))
      description := getProp o "description" }
  | .arr _ =>
    { label := jsOr (getProp o "label") (jsOr (getProp o "text")
        (jsOr (getProp o "name") (.str (toString (index + 1)))))
      value := jsOr (getProp o "value") (jsOr (getProp o "label")
        (jsOr (getProp o "text") (.str (toString (index + 1)))))
      description := getProp o "description" }
  | _ => { label := .str (jsToString o), value := .str (jsToString o), description := .undefined }

/-- `parseOptions(data)`: `data.options || data.choices || data.answers`,
mapped entry-wise when that value is an array, `undefined` otherwise. -/
def parseOptions (data : JSObj) : Option (List InputOption) :=
  let rawOptions := jsOr (objGet data "options")
    (jsOr (objGet data "choices") (objGet data "answers"))
  match rawOptions with
  | .arr xs => some ((xs.enum).map (fun p => parseOneOption p.1 p.2))
  | _ => none

/-- The opportunistic per-session step at the top of `processHookEvent`:
backfill `workingDirectory` while it is still `'Unknown'` and the event
carries one, and look the slug up while it is still unset. -/
def backfillSession (slugOf : String → Option String) (sessionId : String)
    (data : JSObj) (session : ClaudeSession) : ClaudeSession :=
  let s1 :=
    if jsStrictEqStr session.workingDirectory "Unknown" && truthy (objGet data "working_directory")
    then { session with workingDirectory := objGet data "working_directory" }
    else session
  if truthy s1.slug then s1 else { s1 with slug := jsOfSlug (slugOf sessionId) }

/-- Registry effect of the backfill step: rewrite the event's session in
place when it exists, otherwise do nothing. -/
def backfill (slugOf : String → Option String) (st : Registry)
    (sessionId : String) (data : JSObj) : Registry :=
  match mapGet st sessionId with
  | some session => mapSet st sessionId (backfillSession slugOf sessionId data session)
  | none => st

/-- The text chosen for `lastNotification` on a `Notification` event:
`data.message || data.title || data.body || data.text || 'Waiting for input...'`. -/
def notificationMsgOf (data : JSObj) : JSValue :=
  jsOr (objGet data "message") (jsOr (objGet data "title")
    (jsOr (objGet data "body") (jsOr (objGet data "text") (.str "Waiting for input..."))))

/-- The text chosen for `question` on a `Notification` event:
`data.question || data.prompt || notificationMsg`. -/
def questionOf (data : JSObj) : JSValue :=
  jsOr (objGet data "question") (jsOr (objGet data "prompt") (notificationMsgOf data))

/-- `processHookEvent(event)`: the session state machine.  The `SessionEnd`
branch also schedules `removeSession` on a 30-second timer; that deferred
side effect is outside the immediate transition modelled here (the branch
returns the session as it stands right after the status update, exactly as
the source's `getSession(sessionId)` does). -/
def processHookEvent (slugOf : String → Option String) (now : Nat)
    (st : Registry) (event : HookEvent) : Option ClaudeSession × Registry :=
  let st1 := backfill slugOf st event.sessionId event.data
  match event.type with
  | .SessionStart =>
    let r := createSession slugOf now st1 event.sessionId
      (jsOr (objGet event.data "working_directory") (.str "Unknown"))
    (some r.1, r.2)
  | .SessionEnd =>
    let r := updateSession now st1 event.sessionId { status := some .stopped }
    (getSession r.2 event.sessionId, r.2)
  | .PreToolUse =>
    updateSession now st1 event.sessionId
      { status := some .active
        currentTool := some (objGet event.data "tool_name")
        question := some .undefined
        options := some none
        lastNotification := some .undefined }
  | .PostToolUse =>
    updateSession now st1 event.sessionId
      { status := some .active
        currentTool := some .undefined
        question := some .undefined
        options := some none
        lastNotification := some .undefined }
  | .Notification =>
    updateSession now st1 event.sessionId
      { status := some .waiting
        lastNotification := some (notificationMsgOf event.data)
        question := some (questionOf event.data)
        options := some (parseOptions event.data) }
  | .Stop =>
    updateSession now st1 event.sessionId
      { status := some .stopped
        currentTool := some .undefined }

/-- `ensureSession(sessionId)`: return the stored session, creating one
with `workingDirectory = 'Unknown'` only when none exists. -/
def ensureSession (slugOf : String → Option String) (now : Nat)
    (st : Registry) (sessionId : String) : ClaudeSession × Registry :=
  match mapGet st sessionId with
  | some session => (session, st)
  | none => createSession slugOf now st sessionId (.str "Unknown")

/-- JS `String.prototype.startsWith`: the characters of the candidate are
a prefix of the characters of the string. -/
def strStartsWith (s p : String) : Bool := p.data.isPrefixOf s.data

/-- A resolved lookup: `{ id, session }` (session-utils `SessionMatch`). -/
structure SessionMatch where
  id : String
  session : ClaudeSession

/-- session-utils `SessionLookupResult`, with each optional TS field an
`Option` (absent = `none`).  The TS field `matches` is `matchList` here
because `matches` is a reserved word in Lean. -/
structure SessionLookupResult where
  found : Bool
  session : Option SessionMatch := none
  ambiguous : Option Bool := none
  matchList : Option (List ClaudeSession) := none
  error : Option String := none

/-- The prefix candidates of `findSessionById`:
`getSessions().filter((s) => s.id.startsWith(idPrefix))`. -/
def prefixMatches (st : Registry) (idp : String) : List ClaudeSession :=
  (getSessions st).filter (fun s => strStartsWith s.id idp)

/-- `findSessionById(idPrefix)`: exact `getSession` hit first; otherwise
prefix filtering with the one-match / many-match / no-match outcomes.  The
source's `matches.length === 1` / `matches.length > 1` / else chain (with
`matches[0]` in the first branch) is rendered as the equivalent match on
the candidate list's shape. -/
def findSessionById (st : Registry) (idp : String) : SessionLookupResult :=
  match getSession st idp with
  | some exactSession => { found := true, session := some ⟨idp, exactSession⟩ }
  | none =>
    match prefixMatches st idp with
    | [m] => { found := true, session := some ⟨m.id, m⟩ }
    | m1 :: m2 :: rest =>
      { found := false, ambiguous := some true, matchList := some (m1 :: m2 :: rest)
        error := some ("Multiple sessions match \"" ++ idp ++ "\"") }
    | [] => { found := false, error := some ("No session found matching \"" ++ idp ++ "\"") }

/-- Insert one session into a list already sorted by descending
`lastActivity`, keeping earlier elements first on ties — the effect of the
stable `sort((a, b) => b.lastActivity - a.lastActivity)`. -/
def insertByLastActivityDesc (x : ClaudeSession) : List ClaudeSession → List ClaudeSession
  | [] => [x]
  | y :: ys =>
    if x.lastActivity ≥ y.lastActivity then x :: y :: ys
    else y :: insertByLastActivityDesc x ys

/-- Stable descending sort by `lastActivity`. -/
def sortByLastActivityDesc (l : List ClaudeSession) : List ClaudeSession :=
  l.foldr insertByLastActivityDesc []

/-- `findTargetSession()`: the first `waiting` session if any, else the
head of the `active` sessions sorted by descending `lastActivity`
(`.sort(...)[0]`), else `null`. -/
def findTargetSession (st : Registry) : Option SessionMatch :=
  let sessions := getSessions st
  match sessions.find? (fun s => s.status = .waiting) with
  | some waitingSession => some ⟨waitingSession.id, waitingSession⟩
  | none =>
    match (sortByLastActivityDesc (sessions.filter (fun s => s.status = .active))).head? with
    | some activeSession => some ⟨activeSession.id, activeSession⟩
    | none => none

/-- Outcome of `startHookServer()`: the port the listener ended up bound
to (`none` = gave up), the final persisted `settings.hookServerPort`, and
how many increment-persist-retry rounds were taken. -/
structure ServerOutcome where
  boundPort : Option Nat
  settingsPort : Nat
  retries : Nat

/-- The bind/retry recursion of `startHookServer()`.  `inUse` tells which
ports fail binding with `EADDRINUSE`.  The source guard is
`port >= 31548 + 10` with `31548` a hardcoded literal; `gas` carries
`31548 + 10 - port` (zero exactly when the guard trips, since the port
only ever increases), which also makes the recursion structural. -/
def startHookServerGo (inUse : Nat → Bool) : Nat → Nat → ServerOutcome
  | port, gas =>
    if inUse port then
      match gas with
      | 0 => { boundPort := none, settingsPort := port, retries := 0 }
      | g + 1 =>
        let r := startHookServerGo inUse (port + 1) g
        { boundPort := r.boundPort, settingsPort := r.settingsPort, retries := r.retries + 1 }
    else { boundPort := some port, settingsPort := port, retries := 0 }

/-- `startHookServer()` from the configured `settings.hookServerPort`:
on `EADDRINUSE` it gives up once the port reaches `31548 + 10`, otherwise
persists `port + 1` to settings and calls itself again. -/
def startHookServer (inUse : Nat → Bool) (hookServerPort : Nat) : ServerOutcome :=
  startHookServerGo inUse hookServerPort (31548 + 10 - hookServerPort)

/-- Contents of the wrapper handle file `~/.claude/party-wrapper.port`. -/
structure WrapperInfo where
  port : Nat
  pid : Nat

/-- The environment the input-delivery channel acts on.
`wrapperFile = some none` is a handle file holding unparsable JSON
(`JSON.parse` throws, swallowed by the outer catch); `liveP` is the
`process.kill(pid, 0)` liveness probe; `httpOk port n` is the outcome of
the n-th HTTP POST of this world (counted by `httpAttempts`);
`inputFiles` maps a session id to the contents of its drop-box file;
`writeFails` / `readFails` are the filesystem-error oracles for the
fallback write and the pending-input read. -/
structure World where
  wrapperFile : Option (Option WrapperInfo)
  liveP : Nat → Bool
  httpOk : Nat → Nat → Bool
  httpAttempts : Nat
  inputDirExists : Bool
  inputFiles : String → Option String
  writeFails : Bool
  readFails : Bool

/-- `getWrapperPort()`: no file (or unreadable JSON) gives `null`; a
parsed handle whose pid probes dead is stale — the file is unlinked and
`null` returned; a live pid yields the port. -/
def getWrapperPort (w : World) : Option Nat × World :=
  match w.wrapperFile with
  | none => (none, w)
  | some none => (none, w)
  | some (some info) =>
    if w.liveP info.pid then (some info.port, w)
    else (none, { w with wrapperFile := none })

/-- `sendInputViaHttpOnce(port, input)`: one POST to the wrapper's
`/input`; resolves `true` on a 200 and `false` on any error, non-2xx or
timeout — the oracle decides, and the attempt counter records that a
network delivery attempt happened. -/
def sendInputViaHttpOnce (w : World) (port : Nat) : Bool × World :=
  (w.httpOk port w.httpAttempts, { w with httpAttempts := w.httpAttempts + 1 })

/-- The retry loop of `sendInputViaHttp` over its remaining attempts
(initial attempt plus retries after backoff delays): stop on success, and
between attempts re-check the wrapper handle, aborting early when the
wrapper has disappeared (which also unlinks a stale handle). -/
def sendInputViaHttpLoop (w : World) (port : Nat) : List Nat → Bool × World
  | [] => (false, w)
  | _ :: rest =>
    let r1 := sendInputViaHttpOnce w port
    if r1.1 then (true, r1.2)
    else
      let r2 := getWrapperPort r1.2
      match r2.1 with
      | none => (false, r2.2)
      | some _ => sendInputViaHttpLoop r2.2 port rest

/-- `sendInputViaHttp(port, input)` with the default `maxRetries = 3`:
attempts `0..3`, with backoff delays `[0, 1000, 2000, 4000]` (real-time
waits, irrelevant to the state transition). -/
def sendInputViaHttp (w : World) (port : Nat) : Bool × World :=
  sendInputViaHttpLoop w port [0, 1000, 2000, 4000]

/-- The fallback filesystem transport shared by `sendInputToSession` and
`sendInputToSessionSync`: create the drop-box directory if absent and
write the text to `{sessionId}.input`; any filesystem error is caught and
reported as `false`. -/
def writeInputFile (w : World) (sessionId input : String) : Bool × World :=
  if w.writeFails then (false, w)
  else
    (true,
      { w with
        inputDirExists := true
        inputFiles := fun k => if k = sessionId then some input else w.inputFiles k })

/-- `sendInputToSession(sessionId, input)`: try the HTTP transport when a
live wrapper handle exists; on success report `true`, otherwise fall back
to the drop-box write.  It never throws: every failure path resolves to a
boolean. -/
def sendInputToSession (w : World) (sessionId input : String) : Bool × World :=
  let r := getWrapperPort w
  match r.1 with
  | some wrapperPort =>
    let h := sendInputViaHttp r.2 wrapperPort
    if h.1 then (true, h.2)
    else writeInputFile h.2 sessionId input
  | none => writeInputFile r.2 sessionId input

/-- `sendInputToSessionSync(sessionId, input)`: the drop-box write alone. -/
def sendInputToSessionSync (w : World) (sessionId input : String) : Bool × World :=
  writeInputFile w sessionId input

/-- `readPendingInput(sessionId)`: read-then-delete of the drop-box file;
a missing file returns `null` without error, and a filesystem error during
the read is caught and also yields `null`. -/
def readPendingInput (w : World) (sessionId : String) : Option String × World :=
  match w.inputFiles sessionId with
  | some input =>
    if w.readFails then (none, w)
    else
      (some input,
        { w with inputFiles := fun k => if k = sessionId then none else w.inputFiles k })
  | none => (none, w)

/-- `hasPendingInput(sessionId)`: existence probe on the drop-box file. -/
def hasPendingInput (w : World) (sessionId : String) : Bool :=
  (w.inputFiles sessionId).isSome

/-! ### Registry map lemmas -/

theorem mapGet_nil (k : String) : mapGet [] k = none := rfl

theorem mapGet_cons (p : String × ClaudeSession) (m : Registry) (k : String) :
    mapGet (p :: m) k = if p.1 = k then some p.2 else mapGet m k := by
  by_cases h : p.1 = k <;> simp [mapGet, List.find?_cons, h]

theorem mapGet_mapSet_self (m : Registry) (k : String) (v : ClaudeSession) :
    mapGet (mapSet m k v) k = some v := by
  induction m with
  | nil => simp [mapSet, mapGet_cons]
  | cons p rest ih =>
    by_cases h : p.1 = k
    · simp [mapSet, h, mapGet_cons]
    · simp [mapSet, h, mapGet_cons, ih]

theorem mapGet_mapSet_ne (m : Registry) (k k2 : String) (v : ClaudeSession)
    (h : k ≠ k2) : mapGet (mapSet m k v) k2 = mapGet m k2 := by
  induction m with
  | nil => simp [mapSet, mapGet_cons, mapGet_nil, h]
  | cons p rest ih =>
    by_cases hp : p.1 = k
    · simp [mapSet, hp, mapGet_cons, h]
    · simp [mapSet, hp, mapGet_cons, ih]

theorem mapGet_eq_some_elim (m : Registry) (k : String) (s : ClaudeSession)
    (h : mapGet m k = some s) : ∃ p ∈ m, p.1 = k ∧ p.2 = s := by
  unfold mapGet at h
  cases hf : List.find? (fun p => p.1 = k) m with
  | none => rw [hf] at h; cases h
  | some p =>
    rw [hf] at h
    refine ⟨p, List.mem_of_find?_eq_some hf, ?_, ?_⟩
    · have := List.find?_some hf
      simpa using this
    · cases h; rfl

/-! ### Backfill lemmas -/

theorem backfillSession_fields (slugOf : String → Option String) (sessionId : String)
    (data : JSObj) (s : ClaudeSession) :
    (backfillSession slugOf sessionId data s).lastActivity = s.lastActivity ∧
    (backfillSession slugOf sessionId data s).id = s.id ∧
    (backfillSession slugOf sessionId data s).status = s.status ∧
    (backfillSession slugOf sessionId data s).startTime = s.startTime ∧
    (backfillSession slugOf sessionId data s).currentTool = s.currentTool ∧
    (backfillSession slugOf sessionId data s).lastNotification = s.lastNotification ∧
    (backfillSession slugOf sessionId data s).question = s.question ∧
    (backfillSession slugOf sessionId data s).options = s.options := by
  unfold backfillSession
  split <;> (dsimp only; split <;> simp)

theorem mapGet_backfill_self (slugOf : String → Option String) (st : Registry)
    (sessionId : String) (data : JSObj) :
    mapGet (backfill slugOf st sessionId data) sessionId =
      (mapGet st sessionId).map (backfillSession slugOf sessionId data) := by
  unfold backfill
  cases h : mapGet st sessionId with
  | none => simp [h]
  | some s => simp [mapGet_mapSet_self]

theorem mapGet_backfill_ne (slugOf : String → Option String) (st : Registry)
    (sessionId : String) (data : JSObj) (k : String) (hk : sessionId ≠ k) :
    mapGet (backfill slugOf st sessionId data) k = mapGet st k := by
  unfold backfill
  cases h : mapGet st sessionId with
  | none => rfl
  | some s => simp [mapGet_mapSet_ne _ _ _ _ hk]

/-! ### Concrete fixtures for witnesses and counterexamples -/

/-- A slug-lookup oracle that never finds a slug file. -/
def noSlug : String → Option String := fun _ => none

/-- A plain session record for concrete registries. -/
def mkPlainSession (i : String) (la : Nat) (stat : SessionStatus) : ClaudeSession :=
  { id := i, workingDirectory := .str "/tmp/proj", startTime := 0, status := stat,
    lastActivity := la, currentTool := .undefined, lastNotification := .undefined,
    slug := .undefined, question := .undefined, options := none }

/-! ### C10 — `ensureSession` frame property -/

/-- C10: `ensureSession` on an id that already has a session returns that
session and mutates nothing — the registry comes back unchanged, so no
field of any session (in particular `lastActivity`) moves and no entry is
created, changed or removed; only for an absent id does it create a
session, with `workingDirectory = "Unknown"`. -/
theorem ensureSession_frame (slugOf : String → Option String) (now : Nat)
    (st : Registry) (sid : String) :
    (∀ s, mapGet st sid = some s → ensureSession slugOf now st sid = (s, st)) ∧
    (mapGet st sid = none →
      (ensureSession slugOf now st sid).1.workingDirectory = .str "Unknown" ∧
      (ensureSession slugOf now st sid).1.id = sid ∧
      mapGet (ensureSession slugOf now st sid).2 sid = some (ensureSession slugOf now st sid).1) := by
  constructor
  · intro s h
    simp [ensureSession, h]
  · intro h
    simp [ensureSession, h, createSession, mapGet_mapSet_self]

/-- C10 witness: concrete existing session is returned untouched, and a
fresh id creates an `"Unknown"`-directory session. -/
theorem ensureSession_frame_witness :
    ensureSession noSlug 99 [("s1", mkPlainSession "s1" 3 .active)] "s1" =
      (mkPlainSession "s1" 3 .active, [("s1", mkPlainSession "s1" 3 .active)]) ∧
    (ensureSession noSlug 99 [("s1", mkPlainSession "s1" 3 .active)] "s2").1.workingDirectory =
      .str "Unknown" :=
  ⟨(ensureSession_frame noSlug 99 [("s1", mkPlainSession "s1" 3 .active)] "s1").1
      (mkPlainSession "s1" 3 .active) rfl,
    ((ensureSession_frame noSlug 99 [("s1", mkPlainSession "s1" 3 .active)] "s2").2 rfl).1⟩

/-! ### C9 — `SessionStart` replaces the record -/

/-- C9: processing `SessionStart` for an id that already has a session
replaces the record with a freshly constructed one: `status = active`,
`startTime` and `lastActivity` stamped with the current time, and
`currentTool`/`question`/`options`/`lastNotification` all unset, no matter
what the previous record held. -/
theorem processHookEvent_sessionStart_replaces (slugOf : String → Option String)
    (now : Nat) (st : Registry) (sid : String) (ts : Nat) (data : JSObj)
    (s : ClaudeSession) (_h : mapGet st sid = some s) :
    (processHookEvent slugOf now st ⟨.SessionStart, sid, ts, data⟩).1 =
      some { id := sid
             workingDirectory := jsOr (objGet data "working_directory") (.str "Unknown")
             startTime := now, status := .active, lastActivity := now
             currentTool := .undefined, lastNotification := .undefined
             slug := jsOfSlug (slugOf sid), question := .undefined, options := none } ∧
    mapGet (processHookEvent slugOf now st ⟨.SessionStart, sid, ts, data⟩).2 sid =
      (processHookEvent slugOf now st ⟨.SessionStart, sid, ts, data⟩).1 := by
  simp [processHookEvent, createSession, mapGet_mapSet_self]

/-- C9 witness: a waiting session with a question, options and a tool in
flight is wholly replaced on `SessionStart`. -/
theorem processHookEvent_sessionStart_replaces_witness :
    (processHookEvent noSlug 42
        [("s1", { mkPlainSession "s1" 3 .waiting with
                  question := .str "q", currentTool := .str "Bash",
                  lastNotification := .str "n",
                  options := some [⟨.str "a", .str "a", .undefined⟩] })]
        ⟨.SessionStart, "s1", 41, [("working_directory", .str "/tmp/p2")]⟩).1 =
      some { id := "s1", workingDirectory := .str "/tmp/p2", startTime := 42
             status := .active, lastActivity := 42, currentTool := .undefined
             lastNotification := .undefined, slug := .undefined, question := .undefined
             options := none } := by
  have h := processHookEvent_sessionStart_replaces noSlug 42
    [("s1", { mkPlainSession "s1" 3 .waiting with
              question := .str "q", currentTool := .str "Bash",
              lastNotification := .str "n",
              options := some [⟨.str "a", .str "a", .undefined⟩] })]
    "s1" 41 [("working_directory", .str "/tmp/p2")]
    { mkPlainSession "s1" 3 .waiting with
      question := .str "q", currentTool := .str "Bash",
      lastNotification := .str "n",
      options := some [⟨.str "a", .str "a", .undefined⟩] } rfl
  exact h.1

/-! ### C6 — tool-use events clear the pending prompt -/

/-- C6: on an existing session, `PreToolUse` sets `status = active`, sets
`currentTool` to the payload's `tool_name` and clears
`question`/`options`/`lastNotification`; `PostToolUse` does the same but
clears `currentTool`. -/
theorem processHookEvent_toolUse_clears (slugOf : String → Option String)
    (now : Nat) (st : Registry) (sid : String) (ts : Nat) (data : JSObj)
    (s : ClaudeSession) (h : mapGet st sid = some s) :
    (∃ t, (processHookEvent slugOf now st ⟨.PreToolUse, sid, ts, data⟩).1 = some t ∧
      mapGet (processHookEvent slugOf now st ⟨.PreToolUse, sid, ts, data⟩).2 sid = some t ∧
      t.status = .active ∧ t.currentTool = objGet data "tool_name" ∧
      t.question = .undefined ∧ t.options = none ∧ t.lastNotification = .undefined) ∧
    (∃ t, (processHookEvent slugOf now st ⟨.PostToolUse, sid, ts, data⟩).1 = some t ∧
      mapGet (processHookEvent slugOf now st ⟨.PostToolUse, sid, ts, data⟩).2 sid = some t ∧
      t.status = .active ∧ t.currentTool = .undefined ∧
      t.question = .undefined ∧ t.options = none ∧ t.lastNotification = .undefined) := by
  have hb : mapGet (backfill slugOf st sid data) sid =
      some (backfillSession slugOf sid data s) := by
    rw [mapGet_backfill_self, h]; rfl
  constructor
  · exact ⟨{ backfillSession slugOf sid data s with
        status := .active, currentTool := objGet data "tool_name",
        lastNotification := .undefined, question := .undefined, options := none,
        lastActivity := now },
      by simp [processHookEvent, updateSession, hb],
      by simp [processHookEvent, updateSession, hb, mapGet_mapSet_self],
      rfl, rfl, rfl, rfl, rfl⟩
  · exact ⟨{ backfillSession slugOf sid data s with
        status := .active, currentTool := .undefined,
        lastNotification := .undefined, question := .undefined, options := none,
        lastActivity := now },
      by simp [processHookEvent, updateSession, hb],
      by simp [processHookEvent, updateSession, hb, mapGet_mapSet_self],
      rfl, rfl, rfl, rfl, rfl⟩

/-- C6 witness: a waiting session with question/options/notification set
goes back to `active` with the prompt fields cleared on `PreToolUse`. -/
theorem processHookEvent_toolUse_clears_witness :
    ∃ t, (processHookEvent noSlug 7
        [("s1", { mkPlainSession "s1" 3 .waiting with
                  question := .str "q", lastNotification := .str "n",
                  options := some [⟨.str "a", .str "a", .undefined⟩] })]
        ⟨.PreToolUse, "s1", 6, [("tool_name", .str "Read")]⟩).1 = some t ∧
      t.status = .active ∧ t.currentTool = .str "Read" ∧
      t.question = .undefined ∧ t.options = none ∧ t.lastNotification = .undefined := by
  have h := (processHookEvent_toolUse_clears noSlug 7
    [("s1", { mkPlainSession "s1" 3 .waiting with
              question := .str "q", lastNotification := .str "n",
              options := some [⟨.str "a", .str "a", .undefined⟩] })]
    "s1" 6 [("tool_name", .str "Read")]
    { mkPlainSession "s1" 3 .waiting with
      question := .str "q", lastNotification := .str "n",
      options := some [⟨.str "a", .str "a", .undefined⟩] } rfl).1
  obtain ⟨t, h1, _, h3, h4, h5, h6, h7⟩ := h
  exact ⟨t, h1, h3, by rw [h4]; rfl, h5, h6, h7⟩

/-! ### C4 — `lastActivity` is non-decreasing -/

theorem updateSession_lastActivity_cases (now : Nat) (stb : Registry) (sid : String)
    (u : SessionUpdates) (tid : String) (t : ClaudeSession)
    (ht : mapGet (updateSession now stb sid u).2 tid = some t) :
    t.lastActivity = now ∨ mapGet stb tid = some t := by
  unfold updateSession at ht
  cases hs : mapGet stb sid with
  | none => rw [hs] at ht; exact Or.inr ht
  | some s0 =>
    rw [hs] at ht
    by_cases htid : sid = tid
    · subst htid
      rw [mapGet_mapSet_self] at ht
      exact Or.inl (by rw [← Option.some.inj ht])
    · rw [mapGet_mapSet_ne _ _ _ _ htid] at ht
      exact Or.inr ht

theorem createSession_lastActivity_cases (slugOf : String → Option String) (now : Nat)
    (stb : Registry) (sid : String) (wd : JSValue) (tid : String) (t : ClaudeSession)
    (ht : mapGet (createSession slugOf now stb sid wd).2 tid = some t) :
    t.lastActivity = now ∨ mapGet stb tid = some t := by
  unfold createSession at ht
  by_cases htid : sid = tid
  · subst htid
    rw [mapGet_mapSet_self] at ht
    exact Or.inl (by rw [← Option.some.inj ht])
  · rw [mapGet_mapSet_ne _ _ _ _ htid] at ht
    exact Or.inr ht

theorem backfill_lastActivity_eq (slugOf : String → Option String) (st : Registry)
    (sid : String) (data : JSObj) (tid : String) (t : ClaudeSession)
    (ht : mapGet (backfill slugOf st sid data) tid = some t) :
    ∃ s0, mapGet st tid = some s0 ∧ t.lastActivity = s0.lastActivity := by
  by_cases htid : sid = tid
  · subst htid
    rw [mapGet_backfill_self] at ht
    cases hs : mapGet st sid with
    | none => rw [hs] at ht; cases ht
    | some s0 =>
      rw [hs] at ht
      refine ⟨s0, rfl, ?_⟩
      rw [← Option.some.inj ht]
      exact (backfillSession_fields slugOf sid data s0).1
  · rw [mapGet_backfill_ne _ _ _ _ _ htid] at ht
    exact ⟨t, ht, rfl⟩

/-- C4: per session, `lastActivity` never decreases across any
`updateSession` or `processHookEvent` call (given that the wall clock read
`now` is at or after the session's current stamp), and both
`createSession` and `updateSession` stamp `lastActivity` with the current
time. -/
theorem lastActivity_monotone (slugOf : String → Option String) (now : Nat)
    (st : Registry) (sid tid : String) (wd : JSValue) (u : SessionUpdates)
    (ev : HookEvent) :
    (∀ s, mapGet st tid = some s → s.lastActivity ≤ now →
      (∀ t, mapGet (updateSession now st sid u).2 tid = some t →
        s.lastActivity ≤ t.lastActivity) ∧
      (∀ t, mapGet (processHookEvent slugOf now st ev).2 tid = some t →
        s.lastActivity ≤ t.lastActivity)) ∧
    (createSession slugOf now st sid wd).1.lastActivity = now ∧
    (∀ t, (updateSession now st sid u).1 = some t → t.lastActivity = now) := by
  refine ⟨?_, rfl, ?_⟩
  · intro s hs hle
    constructor
    · intro t ht
      rcases updateSession_lastActivity_cases now st sid u tid t ht with hnow | hsame
      · rw [hnow]; exact hle
      · rw [hs] at hsame
        rw [← Option.some.inj hsame]
    · intro t ht
      obtain ⟨ty, esid, ets, edata⟩ := ev
      have finish_update : ∀ stb u2,
          mapGet (updateSession now (backfill slugOf st esid edata) stb u2).2 tid = some t →
          s.lastActivity ≤ t.lastActivity := by
        intro stb u2 h2
        rcases updateSession_lastActivity_cases now _ stb u2 tid t h2 with hnow | hbf
        · rw [hnow]; exact hle
        · rcases backfill_lastActivity_eq slugOf st esid edata tid t hbf with ⟨s0, hs0, hla⟩
          rw [hs] at hs0
          rw [hla, ← Option.some.inj hs0]
      cases ty <;> simp only [processHookEvent] at ht
      case SessionStart =>
        rcases createSession_lastActivity_cases slugOf now _ esid _ tid t ht with hnow | hbf
        · rw [hnow]; exact hle
        · rcases backfill_lastActivity_eq slugOf st esid edata tid t hbf with ⟨s0, hs0, hla⟩
          rw [hs] at hs0
          rw [hla, ← Option.some.inj hs0]
      case SessionEnd => exact finish_update _ _ ht
      case PreToolUse => exact finish_update _ _ ht
      case PostToolUse => exact finish_update _ _ ht
      case Notification => exact finish_update _ _ ht
      case Stop => exact finish_update _ _ ht
  · intro t ht
    unfold updateSession at ht
    cases hs : mapGet st sid with
    | none => rw [hs] at ht; cases ht
    | some s0 =>
      rw [hs] at ht
      rw [← Option.some.inj ht]

/-! ### C7 — `sendInputToSession` failure semantics and stale-handle fallback -/

theorem getWrapperPort_writeFails (w : World) :
    (getWrapperPort w).2.writeFails = w.writeFails := by
  unfold getWrapperPort
  cases hw : w.wrapperFile with
  | none => rfl
  | some inner =>
    cases inner with
    | none => rfl
    | some info => by_cases h : w.liveP info.pid <;> simp [h]

theorem sendInputViaHttpLoop_writeFails (l : List Nat) :
    ∀ w port, (sendInputViaHttpLoop w port l).2.writeFails = w.writeFails := by
  induction l with
  | nil => intro w port; rfl
  | cons d rest ih =>
    intro w port
    simp only [sendInputViaHttpLoop]
    by_cases h1 : (sendInputViaHttpOnce w port).1
    · simp only [h1, if_true]
      rfl
    · simp only [h1, Bool.false_eq_true, if_false]
      cases h2 : (getWrapperPort (sendInputViaHttpOnce w port).2).1 with
      | none =>
        have h3 := getWrapperPort_writeFails (sendInputViaHttpOnce w port).2
        simpa using h3
      | some p =>
        rw [ih]
        have h3 := getWrapperPort_writeFails (sendInputViaHttpOnce w port).2
        simpa using h3

theorem writeInputFile_false (w : World) (sid inp : String)
    (h : (writeInputFile w sid inp).1 = false) : w.writeFails = true := by
  unfold writeInputFile at h
  by_cases hw : w.writeFails
  · exact hw
  · simp [hw] at h

theorem getWrapperPort_stale (w : World) (info : WrapperInfo)
    (hf : w.wrapperFile = some (some info)) (hd : w.liveP info.pid = false) :
    getWrapperPort w = (none, { w with wrapperFile := none }) := by
  unfold getWrapperPort
  rw [hf]
  simp [hd]

/-- C7: `sendInputToSession` is a total boolean-returning function (the
embedding of "never throws"); it reports `false` only when the fallback
filesystem write itself fails (total failure of both transports); and on a
handle file naming a dead pid it deletes the stale handle, performs no
network delivery attempt, and falls back to the drop-box write, which
succeeds whenever the filesystem write does not error. -/
theorem sendInputToSession_spec (w : World) (sid inp : String) :
    ((sendInputToSession w sid inp).1 = false → w.writeFails = true) ∧
    (∀ info, w.wrapperFile = some (some info) → w.liveP info.pid = false →
      (sendInputToSession w sid inp).2.wrapperFile = none ∧
      (sendInputToSession w sid inp).2.httpAttempts = w.httpAttempts ∧
      (w.writeFails = false →
        (sendInputToSession w sid inp).1 = true ∧
        (sendInputToSession w sid inp).2.inputFiles sid = some inp)) := by
  constructor
  · intro hfalse
    simp only [sendInputToSession] at hfalse
    cases hr : (getWrapperPort w).1 with
    | some port =>
      rw [hr] at hfalse
      by_cases hh : (sendInputViaHttp (getWrapperPort w).2 port).1
      · simp [hh] at hfalse
      · simp only [hh, Bool.false_eq_true, if_false] at hfalse
        have h1 := writeInputFile_false _ _ _ hfalse
        rw [sendInputViaHttp] at h1
        rw [sendInputViaHttpLoop_writeFails, getWrapperPort_writeFails] at h1
        exact h1
    | none =>
      rw [hr] at hfalse
      have h1 := writeInputFile_false _ _ _ hfalse
      rw [getWrapperPort_writeFails] at h1
      exact h1
  · intro info hf hd
    have hst := getWrapperPort_stale w info hf hd
    by_cases hw : w.writeFails
    · simp [sendInputToSession, hst, writeInputFile, hw]
    · simp [sendInputToSession, hst, writeInputFile, hw]

/-- A world whose handle file names pid 77 while no process is alive, with
an error-free filesystem. -/
def staleWorld : World :=
  { wrapperFile := some (some ⟨4000, 77⟩)
    liveP := fun _ => false
    httpOk := fun _ _ => true
    httpAttempts := 0
    inputDirExists := false
    inputFiles := fun _ => none
    writeFails := false
    readFails := false }

/-- C7 witness: on the stale-handle world the handle file is deleted, no
HTTP attempt is made, and the text lands in the drop-box. -/
theorem sendInputToSession_spec_witness :
    (sendInputToSession staleWorld "s1" "hello").2.wrapperFile = none ∧
    (sendInputToSession staleWorld "s1" "hello").2.httpAttempts = staleWorld.httpAttempts ∧
    (sendInputToSession staleWorld "s1" "hello").1 = true ∧
    (sendInputToSession staleWorld "s1" "hello").2.inputFiles "s1" = some "hello" := by
  have h := (sendInputToSession_spec staleWorld "s1" "hello").2 ⟨4000, 77⟩ rfl rfl
  exact ⟨h.1, h.2.1, (h.2.2 rfl).1, (h.2.2 rfl).2⟩

/-! ### C8 — drop-box round trip -/

/-- C8: writing a drop-box entry and then reading it back returns exactly
the text written and deletes the file; a second read reports "no pending
input" (`none`) instead of erroring — at-most-once delivery per poll
(stated under an error-free filesystem: the write and read oracles do not
signal an exception). -/
theorem readPendingInput_roundTrip (w : World) (sid text : String)
    (hw : w.writeFails = false) (hr : w.readFails = false) :
    (sendInputToSessionSync w sid text).1 = true ∧
    (readPendingInput (sendInputToSessionSync w sid text).2 sid).1 = some text ∧
    (readPendingInput (sendInputToSessionSync w sid text).2 sid).2.inputFiles sid = none ∧
    (readPendingInput (readPendingInput (sendInputToSessionSync w sid text).2 sid).2 sid).1 =
      none := by
  simp [sendInputToSessionSync, writeInputFile, readPendingInput, hw, hr]

/-- A world with no wrapper handle, no pending input and an error-free
filesystem. -/
def emptyWorld : World :=
  { wrapperFile := none
    liveP := fun _ => false
    httpOk := fun _ _ => false
    httpAttempts := 0
    inputDirExists := false
    inputFiles := fun _ => none
    writeFails := false
    readFails := false }

/-- C8 witness: the round trip on a concrete world. -/
theorem readPendingInput_roundTrip_witness :
    (sendInputToSessionSync emptyWorld "s1" "hello").1 = true ∧
    (readPendingInput (sendInputToSessionSync emptyWorld "s1" "hello").2 "s1").1 = some "hello" ∧
    (readPendingInput (sendInputToSessionSync emptyWorld "s1" "hello").2 "s1").2.inputFiles "s1" =
      none ∧
    (readPendingInput
        (readPendingInput (sendInputToSessionSync emptyWorld "s1" "hello").2 "s1").2 "s1").1 =
      none :=
  readPendingInput_roundTrip emptyWorld "s1" "hello" rfl rfl

/-- C4 witness: a `Notification` processed at time 10 for a session last
active at 3 leaves `lastActivity` at least where it was. -/
theorem lastActivity_monotone_witness :
    ∃ t, mapGet (processHookEvent noSlug 10 [("s1", mkPlainSession "s1" 3 .waiting)]
        ⟨.Notification, "s1", 9, [("message", .str "hi")]⟩).2 "s1" = some t ∧
      (mkPlainSession "s1" 3 .waiting).lastActivity ≤ t.lastActivity :=
  ⟨_, rfl,
    ((lastActivity_monotone noSlug 10 [("s1", mkPlainSession "s1" 3 .waiting)] "s1" "s1"
        (.str "/x") {} ⟨.Notification, "s1", 9, [("message", .str "hi")]⟩).1
      (mkPlainSession "s1" 3 .waiting) rfl (by decide)).2 _ rfl⟩

/-! ### C2 — Notification processing and option parsing -/

/-- First payload field among `keys` with a *truthy* value, else the
default — the selection the `||` chains of the source implement. -/
def firstTruthy (data : JSObj) : List String → JSValue → JSValue
  | [], dflt => dflt
  | k :: ks, dflt =>
    if truthy (objGet data k) then objGet data k else firstTruthy data ks dflt

/-- The claim's reading of "the first present of the payload fields": the
value of the first key that appears in the object at all, whatever its
value — even a falsy one. -/
def firstPresent (data : JSObj) : List String → JSValue → JSValue
  | [], dflt => dflt
  | k :: ks, dflt =>
    match List.find? (fun p => p.1 = k) data with
    | some p => p.2
    | none => firstPresent data ks dflt

/-- JS `typeof v === "object"`. -/
def jsTypeofIsObject : JSValue → Bool
  | .obj _ => true
  | .arr _ => true
  | .null => true
  | _ => false

/-- JS `v === null`. -/
def isNullJS : JSValue → Bool
  | .null => true
  | _ => false

/-- Spec-side label choice: first truthy of `label`/`text`/`name`, else
the 1-based ordinal as a string. -/
def specOptionLabel (index : Nat) (o : JSValue) : JSValue :=
  if truthy (getProp o "label") then getProp o "label"
  else if truthy (getProp o "text") then getProp o "text"
  else if truthy (getProp o "name") then getProp o "name"
  else .str (toString (index + 1))

/-- Spec-side value choice: first truthy of `value`/`label`/`text`, else
the 1-based ordinal as a string. -/
def specOptionValue (index : Nat) (o : JSValue) : JSValue :=
  if truthy (getProp o "value") then getProp o "value"
  else if truthy (getProp o "label") then getProp o "label"
  else if truthy (getProp o "text") then getProp o "text"
  else .str (toString (index + 1))

/-- Spec-side description of one parsed option entry. -/
def specOptionEntry (index : Nat) (o : JSValue) : InputOption :=
  match o with
  | .str s => { label := .str s, value := .str s, description := .undefined }
  | _ =>
    if jsTypeofIsObject o && !isNullJS o then
      { label := specOptionLabel index o, value := specOptionValue index o
        description := getProp o "description" }
    else
      { label := .str (jsToString o), value := .str (jsToString o), description := .undefined }

/-- Spec-side option parsing: the first truthy of the
`options`/`choices`/`answers` aliases, mapped entry-wise when it is an
array. -/
def specParseOptions (data : JSObj) : Option (List InputOption) :=
  match firstTruthy data ["options", "choices", "answers"] .undefined with
  | .arr xs => some ((xs.enum).map (fun p => specOptionEntry p.1 p.2))
  | _ => none

theorem notificationMsgOf_eq_firstTruthy (data : JSObj) :
    notificationMsgOf data =
      firstTruthy data ["message", "title", "body", "text"] (.str "Waiting for input...") := rfl

theorem questionOf_eq_firstTruthy (data : JSObj) :
    questionOf data = firstTruthy data ["question", "prompt"] (notificationMsgOf data) := rfl

theorem parseOneOption_eq_spec (i : Nat) (o : JSValue) :
    parseOneOption i o = specOptionEntry i o := by
  cases o <;>
    simp [parseOneOption, specOptionEntry, jsTypeofIsObject, isNullJS,
      specOptionLabel, specOptionValue, jsOr]

theorem parseOptions_eq_spec (d : JSObj) : parseOptions d = specParseOptions d := by
  unfold parseOptions specParseOptions firstTruthy
  by_cases h1 : truthy (objGet d "options")
  · simp [jsOr, h1, parseOneOption_eq_spec]
  · by_cases h2 : truthy (objGet d "choices")
    · simp [jsOr, h1, h2, parseOneOption_eq_spec, firstTruthy]
    · by_cases h3 : truthy (objGet d "answers")
      · simp [jsOr, h1, h2, h3, parseOneOption_eq_spec, firstTruthy]
      · simp only [jsOr, h1, h2, h3, Bool.false_eq_true, if_false, firstTruthy]
        cases hv : objGet d "answers" with
        | arr xs => rw [hv] at h3; simp [truthy] at h3
        | _ => rfl

/-- C2 (amended): on an existing session, a `Notification` event sets
`status = waiting`, sets `lastNotification` to the first *truthy* of the
payload fields `message`/`title`/`body`/`text` (a present but falsy value
such as `""` is skipped) with default `"Waiting for input..."`, sets
`question` to the first truthy of `question`/`prompt` or else the
notification text, and parses `options` from the first truthy of the
`options`/`choices`/`answers` aliases when that value is an array: string
entries become label = value = the string; non-null object-typed entries
(including arrays) take the first truthy of `label`/`text`/`name` as label
and of `value`/`label`/`text` as value, with the 1-based ordinal string as
default; all other entries degrade to their JS string form. -/
theorem processHookEvent_notification_spec (slugOf : String → Option String)
    (now : Nat) (st : Registry) (sid : String) (ts : Nat) (data : JSObj)
    (s : ClaudeSession) (h : mapGet st sid = some s) :
    (∃ t, (processHookEvent slugOf now st ⟨.Notification, sid, ts, data⟩).1 = some t ∧
      mapGet (processHookEvent slugOf now st ⟨.Notification, sid, ts, data⟩).2 sid = some t ∧
      t.status = .waiting ∧
      t.lastNotification =
        firstTruthy data ["message", "title", "body", "text"] (.str "Waiting for input...") ∧
      t.question =
        firstTruthy data ["question", "prompt"]
          (firstTruthy data ["message", "title", "body", "text"] (.str "Waiting for input...")) ∧
      t.options = specParseOptions data ∧
      t.startTime = s.startTime ∧ t.id = s.id) ∧
    (∀ d2 : JSObj, parseOptions d2 = specParseOptions d2) := by
  have hb : mapGet (backfill slugOf st sid data) sid =
      some (backfillSession slugOf sid data s) := by
    rw [mapGet_backfill_self, h]; rfl
  constructor
  · refine ⟨{ backfillSession slugOf sid data s with
        status := .waiting, lastNotification := notificationMsgOf data,
        question := questionOf data, options := parseOptions data,
        lastActivity := now },
      by simp [processHookEvent, updateSession, hb],
      by simp [processHookEvent, updateSession, hb, mapGet_mapSet_self],
      rfl,
      notificationMsgOf_eq_firstTruthy data,
      ?_, ?_, ?_, ?_⟩
    · rw [show ({ backfillSession slugOf sid data s with
          status := .waiting, lastNotification := notificationMsgOf data,
          question := questionOf data, options := parseOptions data,
          lastActivity := now } : ClaudeSession).question = questionOf data from rfl,
        questionOf_eq_firstTruthy, notificationMsgOf_eq_firstTruthy]
    · rw [show ({ backfillSession slugOf sid data s with
          status := .waiting, lastNotification := notificationMsgOf data,
          question := questionOf data, options := parseOptions data,
          lastActivity := now } : ClaudeSession).options = parseOptions data from rfl,
        parseOptions_eq_spec]
    · exact (backfillSession_fields slugOf sid data s).2.2.2.1
    · exact (backfillSession_fields slugOf sid data s).2.1
  · exact parseOptions_eq_spec

/-- Payload with a present-but-empty `message` and a `title`. -/
def dataNotifCE : JSObj := [("message", .str ""), ("title", .str "T")]

/-- Registry with a single active session `s1`. -/
def regNotifCE : Registry := [("s1", mkPlainSession "s1" 3 .active)]

/-- C2 counterexample: with `message` present but `""`, the code stores
`"T"` (the first *truthy* field), not the claim's "first present" value
`""` — so `lastNotification` differs from the claim's prescription. -/
theorem processHookEvent_notification_counterexample :
    (processHookEvent noSlug 5 regNotifCE ⟨.Notification, "s1", 4, dataNotifCE⟩).1.map
        (fun t => t.lastNotification) = some (.str "T") ∧
    firstPresent dataNotifCE ["message", "title", "body", "text"]
        (.str "Waiting for input...") = .str "" ∧
    (processHookEvent noSlug 5 regNotifCE ⟨.Notification, "s1", 4, dataNotifCE⟩).1.map
        (fun t => t.lastNotification) ≠
      some (firstPresent dataNotifCE ["message", "title", "body", "text"]
        (.str "Waiting for input...")) := by
  refine ⟨rfl, rfl, ?_⟩
  intro hcontr
  rw [show (processHookEvent noSlug 5 regNotifCE ⟨.Notification, "s1", 4, dataNotifCE⟩).1.map
      (fun t => t.lastNotification) = some (.str "T") from rfl,
    show firstPresent dataNotifCE ["message", "title", "body", "text"]
      (.str "Waiting for input...") = .str "" from rfl] at hcontr
  have h2 : JSValue.str "T" = JSValue.str "" := Option.some.inj hcontr
  injection h2 with h3
  exact absurd h3 (by decide)

/-- Payload with a message and a mixed `options` array. -/
def dataNotifW : JSObj :=
  [("message", .str "pick"),
   ("options", .arr [.str "a", .obj [("label", .str "B"), ("value", .num 2)], .arr []])]

/-- C2 witness: the amended theorem applied to a concrete notification
with a string option, an object option and an array option that falls
back to its 1-based ordinal. -/
theorem processHookEvent_notification_spec_witness :
    ∃ t, (processHookEvent noSlug 5 regNotifCE ⟨.Notification, "s1", 4, dataNotifW⟩).1 =
        some t ∧
      t.status = .waiting ∧ t.lastNotification = .str "pick" ∧
      t.question = .str "pick" ∧
      t.options = some [⟨.str "a", .str "a", .undefined⟩, ⟨.str "B", .num 2, .undefined⟩,
        ⟨.str "3", .str "3", .undefined⟩] := by
  obtain ⟨⟨t, h1, _, h3, h4, h5, h6, _⟩, _⟩ :=
    processHookEvent_notification_spec noSlug 5 regNotifCE "s1" 4 dataNotifW
      (mkPlainSession "s1" 3 .active) rfl
  refine ⟨t, h1, h3, ?_, ?_, ?_⟩
  · rw [h4]; rfl
  · rw [h5]; rfl
  · rw [h6]; rfl

/-! ### C1 — prefix lookup and ambiguity -/

theorem strStartsWith_refl (s : String) : strStartsWith s s = true := by
  simp [strStartsWith, List.isPrefixOf_iff_prefix]

theorem exact_mem_prefixMatches (st : Registry) (idp : String) (s : ClaudeSession)
    (hWF : ∀ p ∈ st, (p.2).id = p.1) (hex : getSession st idp = some s) :
    s ∈ prefixMatches st idp := by
  obtain ⟨p, hmem, hk, hv⟩ := mapGet_eq_some_elim st idp s hex
  have hsid : s.id = idp := by rw [← hv, hWF p hmem, hk]
  refine List.mem_filter.mpr ⟨?_, ?_⟩
  · rw [← hv]; exact List.mem_map_of_mem _ hmem
  · rw [hsid]; exact strStartsWith_refl idp

/-- C1 (amended): provided the registry is well-formed (each entry's key
is its session's id), `findSessionById` resolves an exact id immediately;
*when the probe is not itself a registered id*, two or more prefix matches
yield the ambiguous result carrying the full candidate list; zero prefix
matches yield not-found; and a unique prefix match resolves to that
session (this also covers the unique-match case with an exact hit, where
the exact session is the unique candidate). -/
theorem findSessionById_spec (st : Registry) (idp : String)
    (hWF : ∀ p ∈ st, (p.2).id = p.1) :
    (∀ s, getSession st idp = some s →
      findSessionById st idp = { found := true, session := some ⟨idp, s⟩ }) ∧
    (getSession st idp = none → 2 ≤ (prefixMatches st idp).length →
      (findSessionById st idp).found = false ∧
      (findSessionById st idp).ambiguous = some true ∧
      (findSessionById st idp).matchList = some (prefixMatches st idp)) ∧
    (prefixMatches st idp = [] →
      (findSessionById st idp).found = false ∧
      (findSessionById st idp).session = none ∧
      (findSessionById st idp).ambiguous = none) ∧
    (∀ m, prefixMatches st idp = [m] →
      (findSessionById st idp).found = true ∧
      ∃ mm, (findSessionById st idp).session = some mm ∧ mm.session = m) := by
  refine ⟨?_, ?_, ?_, ?_⟩
  · intro s hex
    simp [findSessionById, hex]
  · intro hnone hlen
    cases hm : prefixMatches st idp with
    | nil => rw [hm] at hlen; simp at hlen
    | cons m1 tl =>
      cases tl with
      | nil => rw [hm] at hlen; simp at hlen
      | cons m2 rest =>
        refine ⟨?_, ?_, ?_⟩ <;> simp [findSessionById, hnone, hm]
  · intro hnil
    cases hex : getSession st idp with
    | some s =>
      have hmem := exact_mem_prefixMatches st idp s hWF hex
      rw [hnil] at hmem
      cases hmem
    | none =>
      refine ⟨?_, ?_, ?_⟩ <;> simp [findSessionById, hex, hnil]
  · intro m hone
    cases hex : getSession st idp with
    | some s =>
      have hmem := exact_mem_prefixMatches st idp s hWF hex
      rw [hone] at hmem
      have hsm : s = m := by simpa using hmem
      subst hsm
      exact ⟨by simp [findSessionById, hex], ⟨idp, s⟩,
        by simp [findSessionById, hex], rfl⟩
    | none =>
      exact ⟨by simp [findSessionById, hex, hone], ⟨m.id, m⟩,
        by simp [findSessionById, hex, hone], rfl⟩

/-- Registry whose ids `"ab"` and `"abc"` share the prefix `"ab"`, with
`"ab"` itself a registered id. -/
def regPrefixCE : Registry :=
  [("ab", mkPlainSession "ab" 1 .active), ("abc", mkPlainSession "abc" 2 .active)]

/-- C1 counterexample: two sessions' ids start with `"ab"`, yet
`findSessionById "ab"` silently resolves to the exact match — `found` is
true, no ambiguous result, no candidate list — refuting the claim that
two or more prefix matches always produce an ambiguous result. -/
theorem findSessionById_counterexample :
    2 ≤ (prefixMatches regPrefixCE "ab").length ∧
    (findSessionById regPrefixCE "ab").found = true ∧
    (findSessionById regPrefixCE "ab").session =
      some ⟨"ab", mkPlainSession "ab" 1 .active⟩ ∧
    (findSessionById regPrefixCE "ab").ambiguous = none ∧
    (findSessionById regPrefixCE "ab").matchList = none := by
  refine ⟨by decide, rfl, rfl, rfl, rfl⟩

/-- C1 witness: on the same registry the non-exact probe `"a"` (also with
two candidates) does produce the ambiguous result with the full list. -/
theorem findSessionById_spec_witness :
    (findSessionById regPrefixCE "a").found = false ∧
    (findSessionById regPrefixCE "a").ambiguous = some true ∧
    (findSessionById regPrefixCE "a").matchList = some (prefixMatches regPrefixCE "a") :=
  (findSessionById_spec regPrefixCE "a" (by decide)).2.1 rfl (by decide)

/-! ### C3 — best-target selection -/

theorem mem_insertByLastActivityDesc (x z : ClaudeSession) (l : List ClaudeSession) :
    z ∈ insertByLastActivityDesc x l ↔ z = x ∨ z ∈ l := by
  induction l with
  | nil => simp [insertByLastActivityDesc]
  | cons y ys ih =>
    unfold insertByLastActivityDesc
    by_cases h : x.lastActivity ≥ y.lastActivity
    · simp [h]
    · simp only [h, if_false, List.mem_cons, ih]
      tauto

theorem pairwise_insertByLastActivityDesc (x : ClaudeSession) (l : List ClaudeSession)
    (hl : l.Pairwise (fun a b => b.lastActivity ≤ a.lastActivity)) :
    (insertByLastActivityDesc x l).Pairwise (fun a b => b.lastActivity ≤ a.lastActivity) := by
  induction l with
  | nil => simp [insertByLastActivityDesc]
  | cons y ys ih =>
    rw [List.pairwise_cons] at hl
    obtain ⟨hy, hys⟩ := hl
    unfold insertByLastActivityDesc
    by_cases h : x.lastActivity ≥ y.lastActivity
    · simp only [h, if_true]
      rw [List.pairwise_cons]
      refine ⟨?_, ?_⟩
      · intro z hz
        rcases List.mem_cons.mp hz with hz1 | hz2
        · subst hz1; exact h
        · exact le_trans (hy z hz2) h
      · rw [List.pairwise_cons]
        exact ⟨hy, hys⟩
    · simp only [h, if_false]
      rw [List.pairwise_cons]
      refine ⟨?_, ih hys⟩
      intro z hz
      rcases (mem_insertByLastActivityDesc x z ys).mp hz with hz1 | hz2
      · subst hz1; omega
      · exact hy z hz2

theorem mem_sortByLastActivityDesc (l : List ClaudeSession) (z : ClaudeSession) :
    z ∈ sortByLastActivityDesc l ↔ z ∈ l := by
  induction l with
  | nil => simp [sortByLastActivityDesc]
  | cons x xs ih =>
    show z ∈ insertByLastActivityDesc x (sortByLastActivityDesc xs) ↔ _
    rw [mem_insertByLastActivityDesc, ih]
    simp

theorem pairwise_sortByLastActivityDesc (l : List ClaudeSession) :
    (sortByLastActivityDesc l).Pairwise (fun a b => b.lastActivity ≤ a.lastActivity) := by
  induction l with
  | nil => simp [sortByLastActivityDesc]
  | cons x xs ih =>
    exact pairwise_insertByLastActivityDesc x (sortByLastActivityDesc xs) ih

theorem head_sortByLastActivityDesc_max (l : List ClaudeSession) (h : ClaudeSession)
    (hh : (sortByLastActivityDesc l).head? = some h) :
    h ∈ l ∧ ∀ z ∈ l, z.lastActivity ≤ h.lastActivity := by
  cases hs : sortByLastActivityDesc l with
  | nil => rw [hs] at hh; cases hh
  | cons a t =>
    rw [hs] at hh
    have ha : a = h := by cases hh; rfl
    subst ha
    have hpw := pairwise_sortByLastActivityDesc l
    rw [hs, List.pairwise_cons] at hpw
    constructor
    · exact (mem_sortByLastActivityDesc l a).mp (by rw [hs]; exact List.mem_cons_self a t)
    · intro z hz
      have hz2 : z ∈ a :: t := by rw [← hs]; exact (mem_sortByLastActivityDesc l z).mpr hz
      rcases List.mem_cons.mp hz2 with hz3 | hz4
      · subst hz3; exact le_refl _
      · exact hpw.1 z hz4

/-- C3: `findTargetSession` returns the first `waiting` session when one
exists (so a waiting session is preferred over every active one, whatever
their `lastActivity`); with no waiting session it returns an `active`
session whose `lastActivity` is greatest among the active ones; with
neither it returns `none`. -/
theorem findTargetSession_spec (st : Registry) :
    (∀ w, (getSessions st).find? (fun s => s.status = .waiting) = some w →
      findTargetSession st = some ⟨w.id, w⟩) ∧
    ((∃ s ∈ getSessions st, s.status = .waiting) →
      ∃ mm, findTargetSession st = some mm ∧ mm.session.status = .waiting) ∧
    ((∀ s ∈ getSessions st, s.status ≠ .waiting) →
      (∃ s ∈ getSessions st, s.status = .active) →
      ∃ mm, findTargetSession st = some mm ∧ mm.session ∈ getSessions st ∧
        mm.session.status = .active ∧
        ∀ z ∈ getSessions st, z.status = .active →
          z.lastActivity ≤ mm.session.lastActivity) ∧
    ((∀ s ∈ getSessions st, s.status ≠ .waiting ∧ s.status ≠ .active) →
      findTargetSession st = none) := by
  refine ⟨?_, ?_, ?_, ?_⟩
  · intro w hw
    simp [findTargetSession, hw]
  · rintro ⟨s, hs, hw⟩
    cases hf : (getSessions st).find? (fun s => s.status = .waiting) with
    | none =>
      rw [List.find?_eq_none] at hf
      exact absurd (by simp [hw]) (hf s hs)
    | some w =>
      have hwst : w.status = .waiting := by
        have := List.find?_some hf
        simpa using this
      exact ⟨⟨w.id, w⟩, by simp [findTargetSession, hf], hwst⟩
  · intro hnow
    rintro ⟨s, hs, ha⟩
    have hf : (getSessions st).find? (fun s => s.status = .waiting) = none := by
      rw [List.find?_eq_none]
      intro x hx
      simp [hnow x hx]
    have hsf : s ∈ (getSessions st).filter (fun s => s.status = .active) :=
      List.mem_filter.mpr ⟨hs, by simp [ha]⟩
    cases hh : (sortByLastActivityDesc
        ((getSessions st).filter (fun s => s.status = .active))).head? with
    | none =>
      rw [List.head?_eq_none_iff] at hh
      have := (mem_sortByLastActivityDesc _ s).mpr hsf
      rw [hh] at this
      cases this
    | some h =>
      obtain ⟨hmem, hmax⟩ := head_sortByLastActivityDesc_max _ h hh
      refine ⟨⟨h.id, h⟩, by simp [findTargetSession, hf, hh], ?_, ?_, ?_⟩
      · exact (List.mem_filter.mp hmem).1
      · have := (List.mem_filter.mp hmem).2
        simpa using this
      · intro z hz hza
        exact hmax z (List.mem_filter.mpr ⟨hz, by simp [hza]⟩)
  · intro hall
    have hf : (getSessions st).find? (fun s => s.status = .waiting) = none := by
      rw [List.find?_eq_none]
      intro x hx
      simp [(hall x hx).1]
    have hfil : (getSessions st).filter (fun s => s.status = .active) = [] := by
      rw [List.filter_eq_nil_iff]
      intro x hx
      simp [(hall x hx).2]
    simp [findTargetSession, hf, hfil, sortByLastActivityDesc]

/-- C3 witness: the waiting session `w` (lastActivity 1) is chosen over
the active session `a` (lastActivity 100). -/
theorem findTargetSession_spec_witness :
    findTargetSession
        [("a", mkPlainSession "a" 100 .active), ("w", mkPlainSession "w" 1 .waiting)] =
      some ⟨"w", mkPlainSession "w" 1 .waiting⟩ :=
  (findTargetSession_spec
      [("a", mkPlainSession "a" 100 .active), ("w", mkPlainSession "w" 1 .waiting)]).1
    (mkPlainSession "w" 1 .waiting) rfl

/-! ### C5 — port-conflict recovery bound -/

theorem startHookServerGo_bounds (inUse : Nat → Bool) :
    ∀ gas port, (startHookServerGo inUse port gas).retries ≤ gas ∧
      (startHookServerGo inUse port gas).settingsPort =
        port + (startHookServerGo inUse port gas).retries ∧
      (∀ p, (startHookServerGo inUse port gas).boundPort = some p → inUse p = false) := by
  intro gas
  induction gas with
  | zero =>
    intro port
    by_cases h : inUse port
    · simp [startHookServerGo, h]
    · simp [startHookServerGo, h]
  | succ g ih =>
    intro port
    by_cases h : inUse port
    · obtain ⟨ih1, ih2, ih3⟩ := ih (port + 1)
      simp only [startHookServerGo, h, if_true]
      refine ⟨by omega, by omega, ih3⟩
    · simp [startHookServerGo, h]

/-- C5 (amended): on `EADDRINUSE` the server increments the configured
port by one, persists it, and retries; the retry chain stops once the
port reaches `31548 + 10` (ten above the *default* port), so from the
default configuration this is at most 10 retry attempts, and from any
configuration the attempts are bounded by `31548 + 10 − configuredPort` —
never unbounded; every persisted port equals the configured port plus the
number of retries taken, and a successful outcome binds a free port. -/
theorem startHookServer_bounded_spec (inUse : Nat → Bool) (port : Nat) :
    (startHookServer inUse port).retries ≤ 31548 + 10 - port ∧
    (31548 ≤ port → (startHookServer inUse port).retries ≤ 10) ∧
    (startHookServer inUse port).settingsPort =
      port + (startHookServer inUse port).retries ∧
    (∀ p, (startHookServer inUse port).boundPort = some p → inUse p = false) := by
  obtain ⟨h1, h2, h3⟩ := startHookServerGo_bounds inUse (31548 + 10 - port) port
  exact ⟨h1, fun hp => le_trans h1 (by omega), h2, h3⟩

/-- C5 counterexample: with the configured port 31547 (one below the
default) and every port busy, the server retries 11 times — more than the
claimed "at most 10 attempts" — because the cutoff is the absolute port
number `31548 + 10`, not a count of attempts from the configured port. -/
theorem startHookServer_counterexample :
    10 < (startHookServer (fun _ => true) 31547).retries ∧
    (startHookServer (fun _ => true) 31547).retries = 11 ∧
    (startHookServer (fun _ => true) 31547).boundPort = none ∧
    (startHookServer (fun _ => true) 31547).settingsPort = 31558 := by
  refine ⟨by decide, by decide, by decide, by decide⟩

/-- C5 witness: from the default port 31548 with ports below 31550 busy,
two retries happen (within the bound of 10), the persisted port is
31548 + 2 = 31550, and the bound port 31550 is free. -/
theorem startHookServer_bounded_spec_witness :
    (startHookServer (fun p => decide (p < 31550)) 31548).retries ≤ 10 ∧
    (startHookServer (fun p => decide (p < 31550)) 31548).settingsPort =
      31548 + (startHookServer (fun p => decide (p < 31550)) 31548).retries ∧
    decide (31550 < 31550) = false :=
  ⟨(startHookServer_bounded_spec (fun p => decide (p < 31550)) 31548).2.1 (by decide),
    (startHookServer_bounded_spec (fun p => decide (p < 31550)) 31548).2.2.1,
    (startHookServer_bounded_spec (fun p => decide (p < 31550)) 31548).2.2.2 31550 rfl⟩
